import Mathlib

/-!
Verification model of the auto-reply relay bot (`index.js`).

Strings are modelled as lists of characters (`Str`).  The SQLite tables
(`rules`, `authorized_numbers`, `schedules`) and the JS objects mirroring
them (`rules`, `schedules`, `scheduledJobs`) are modelled as association
lists over `Str` keys; `INSERT OR REPLACE` / JS keyed assignment is
`setEntry`, SQL `DELETE` / JS `delete obj[id]` is `eraseKey`, a keyed
`SELECT` / JS property read is `lookupEntry`.
-/

abbrev Str := List Char

/-- Keyed insert-or-replace: mirrors SQLite `INSERT OR REPLACE` on a
primary-key table and JS `obj[k] = v` on an object used as a map. -/
def setEntry {α : Type} (l : List (Str × α)) (k : Str) (v : α) : List (Str × α) :=
  if l.any (fun e => decide (e.1 = k)) then
    l.map (fun e => if e.1 = k then (k, v) else e)
  else l ++ [(k, v)]

/-- Keyed delete: mirrors SQL `DELETE ... WHERE key = ?` and JS `delete obj[k]`. -/
def eraseKey {α : Type} (l : List (Str × α)) (k : Str) : List (Str × α) :=
  l.filter (fun e => !decide (e.1 = k))

/-- Keyed read: mirrors `SELECT ... WHERE key = ?` (first row) and JS `obj[k]`. -/
def lookupEntry {α : Type} (l : List (Str × α)) (k : Str) : Option α :=
  (l.find? (fun e => decide (e.1 = k))).map Prod.snd

/-- Number of stored rows carrying the key `k`. -/
def countKey {α : Type} (l : List (Str × α)) (k : Str) : Nat :=
  (l.filter (fun e => decide (e.1 = k))).length

/-- The table keys are pairwise distinct (primary-key discipline). -/
def nodupKeys {α : Type} (l : List (Str × α)) : Prop :=
  (l.map Prod.fst).Nodup

instance nodupKeysDec {α : Type} (l : List (Str × α)) : Decidable (nodupKeys l) :=
  inferInstanceAs (Decidable (l.map Prod.fst).Nodup)

theorem countKey_eq_zero {α : Type} {l : List (Str × α)} {k : Str}
    (h : ∀ e ∈ l, e.1 ≠ k) : countKey l k = 0 := by
  simp only [countKey, List.length_eq_zero, List.filter_eq_nil_iff]
  intro e he
  simp [h e he]

theorem countKey_le_one_of_nodup {α : Type} {l : List (Str × α)} {k : Str}
    (h : nodupKeys l) : countKey l k ≤ 1 := by
  induction l with
  | nil => simp [countKey]
  | cons e rest ih =>
    simp only [nodupKeys, List.map_cons, List.nodup_cons] at h
    by_cases hk : e.1 = k
    · have hzero : countKey rest k = 0 := by
        apply countKey_eq_zero
        intro f hf hfk
        exact h.1 (by rw [hk, ← hfk]; exact List.mem_map_of_mem Prod.fst hf)
      unfold countKey at hzero ⊢
      rw [List.filter_cons, if_pos (by simp [hk])]
      rw [List.length_cons]
      omega
    · unfold countKey at ih ⊢
      rw [List.filter_cons, if_neg (by simp [hk])]
      exact ih h.2

theorem any_key_eq_true {α : Type} {l : List (Str × α)} {k : Str} :
    l.any (fun e => decide (e.1 = k)) = true ↔ ∃ e ∈ l, e.1 = k := by
  rw [List.any_eq_true]
  constructor
  · rintro ⟨e, he, hek⟩
    exact ⟨e, he, of_decide_eq_true hek⟩
  · rintro ⟨e, he, hek⟩
    exact ⟨e, he, decide_eq_true hek⟩

theorem countKey_pos_of_any {α : Type} {l : List (Str × α)} {k : Str}
    (h : l.any (fun e => decide (e.1 = k)) = true) : 0 < countKey l k := by
  rcases any_key_eq_true.mp h with ⟨e, he, hek⟩
  simp only [countKey, List.length_pos]
  intro hnil
  have : e ∈ l.filter (fun e => decide (e.1 = k)) := by
    rw [List.mem_filter]
    exact ⟨he, by simp [hek]⟩
  rw [hnil] at this
  exact absurd this (List.not_mem_nil e)

theorem countKey_setEntry_self {α : Type} {l : List (Str × α)} {k : Str} {v : α}
    (h : nodupKeys l) : countKey (setEntry l k v) k = 1 := by
  unfold setEntry
  by_cases hany : l.any (fun e => decide (e.1 = k)) = true
  · rw [if_pos hany]
    have hmap : countKey (l.map (fun e => if e.1 = k then (k, v) else e)) k = countKey l k := by
      unfold countKey
      rw [List.filter_map]
      rw [List.length_map]
      congr 1
      apply List.filter_congr
      intro e _
      by_cases hek : e.1 = k <;> simp [Function.comp, hek]
    rw [hmap]
    have h1 := countKey_le_one_of_nodup (k := k) h
    have h2 := countKey_pos_of_any hany
    omega
  · rw [if_neg hany]
    have hzero : countKey l k = 0 := by
      apply countKey_eq_zero
      intro e he hek
      exact hany (any_key_eq_true.mpr ⟨e, he, hek⟩)
    unfold countKey at hzero ⊢
    rw [List.filter_append, List.length_append]
    have h2 : (([(k, v)] : List (Str × α)).filter (fun e => decide (e.1 = k))).length = 1 := by
      simp
    omega

theorem nodupKeys_setEntry {α : Type} {l : List (Str × α)} {k : Str} {v : α}
    (h : nodupKeys l) : nodupKeys (setEntry l k v) := by
  unfold setEntry
  by_cases hany : l.any (fun e => decide (e.1 = k)) = true
  · rw [if_pos hany]
    unfold nodupKeys at h ⊢
    have hmapkeys : (l.map (fun e => if e.1 = k then (k, v) else e)).map Prod.fst
        = l.map Prod.fst := by
      rw [List.map_map]
      apply List.map_congr_left
      intro e _
      by_cases hek : e.1 = k <;> simp [Function.comp, hek]
    rw [hmapkeys]
    exact h
  · rw [if_neg hany]
    unfold nodupKeys at h ⊢
    rw [List.map_append]
    simp only [List.map_cons, List.map_nil]
    rw [List.nodup_append]
    refine ⟨h, List.nodup_singleton k, ?_⟩
    intro a ha hb
    simp only [List.mem_singleton] at hb
    subst hb
    rcases List.mem_map.mp ha with ⟨e, he, hek⟩
    exact hany (any_key_eq_true.mpr ⟨e, he, hek⟩)

theorem nodupKeys_eraseKey {α : Type} {l : List (Str × α)} {k : Str}
    (h : nodupKeys l) : nodupKeys (eraseKey l k) := by
  unfold nodupKeys at h ⊢
  exact ((List.filter_sublist l).map Prod.fst).nodup h

theorem find_map_replace {α : Type} {l : List (Str × α)} {k : Str} {v : α}
    (h : ∃ e ∈ l, e.1 = k) :
    (l.map (fun e => if e.1 = k then (k, v) else e)).find? (fun e => decide (e.1 = k))
      = some (k, v) := by
  induction l with
  | nil =>
    exact absurd h (by rintro ⟨e, he, _⟩; exact List.not_mem_nil e he)
  | cons e rest ih =>
    by_cases hek : e.1 = k
    · simp only [List.map_cons, if_pos hek]
      exact List.find?_cons_of_pos _ (by simp)
    · have h2 : ∃ f ∈ rest, f.1 = k := by
        rcases h with ⟨f, hf, hfk⟩
        rcases List.mem_cons.mp hf with rfl | hmem
        · exact absurd hfk hek
        · exact ⟨f, hmem, hfk⟩
      simp only [List.map_cons, if_neg hek]
      rw [List.find?_cons_of_neg _ (by simp [hek])]
      exact ih h2

theorem lookupEntry_setEntry_self {α : Type} {l : List (Str × α)} {k : Str} {v : α} :
    lookupEntry (setEntry l k v) k = some v := by
  unfold setEntry
  by_cases hany : l.any (fun e => decide (e.1 = k)) = true
  · rw [if_pos hany]
    unfold lookupEntry
    rw [find_map_replace (any_key_eq_true.mp hany)]
    rfl
  · rw [if_neg hany]
    unfold lookupEntry
    rw [List.find?_append]
    have hnone : l.find? (fun e => decide (e.1 = k)) = none := by
      rw [List.find?_eq_none]
      intro e he
      simp only [decide_eq_true_eq]
      intro hek
      exact hany (any_key_eq_true.mpr ⟨e, he, hek⟩)
    rw [hnone]
    simp [List.find?]

theorem lookupEntry_eraseKey_self {α : Type} {l : List (Str × α)} {k : Str} :
    lookupEntry (eraseKey l k) k = none := by
  unfold lookupEntry eraseKey
  rw [Option.map_eq_none', List.find?_eq_none]
  intro e he
  rcases List.mem_filter.mp he with ⟨_, hkeep⟩
  simpa using hkeep

theorem eraseKey_eq_self {α : Type} {l : List (Str × α)} {k : Str}
    (h : ∀ e ∈ l, e.1 ≠ k) : eraseKey l k = l := by
  unfold eraseKey
  apply List.filter_eq_self.mpr
  intro e he
  simp [h e he]

theorem lookupEntry_eq_none_iff {α : Type} {l : List (Str × α)} {k : Str} :
    lookupEntry l k = none ↔ ∀ e ∈ l, e.1 ≠ k := by
  unfold lookupEntry
  rw [Option.map_eq_none', List.find?_eq_none]
  constructor
  · intro h e he
    have := h e he
    simpa using this
  · intro h e he
    simpa using h e he

theorem setEntry_eq_append {α : Type} {l : List (Str × α)} {k : Str} {v : α}
    (h : ∀ e ∈ l, e.1 ≠ k) : setEntry l k v = l ++ [(k, v)] := by
  unfold setEntry
  rw [if_neg]
  simp only [List.any_eq_true, decide_eq_true_eq, not_exists]
  intro e
  intro hcon
  exact absurd hcon.2 (h e hcon.1)

theorem lookupEntry_of_mem_nodup {α : Type} {l : List (Str × α)} {k : Str} {v : α}
    (hnd : nodupKeys l) (hmem : (k, v) ∈ l) : lookupEntry l k = some v := by
  induction l with
  | nil => exact absurd hmem (List.not_mem_nil _)
  | cons e rest ih =>
    simp only [nodupKeys, List.map_cons, List.nodup_cons] at hnd
    rcases List.mem_cons.mp hmem with heq | hrest
    · subst heq
      unfold lookupEntry
      rw [List.find?_cons_of_pos _ (by simp)]
      rfl
    · by_cases hek : e.1 = k
      · exfalso
        apply hnd.1
        rw [hek]
        exact List.mem_map_of_mem Prod.fst (by simpa using hrest)
      · unfold lookupEntry
        rw [List.find?_cons_of_neg _ (by simp [hek])]
        exact ih hnd.2 hrest

/-!  Matcher and Telegram auto-reply (`index.js` lines 706-723, 219-241). -/

/-- Lower-casing of a string, mirroring JS `text.toLowerCase()`. -/
def lowerStr (s : Str) : Str := s.map Char.toLower

/-- Substring containment, mirroring JS `hay.includes(needle)`. -/
def containsSub (needle hay : Str) : Bool :=
  hay.tails.any (fun t => needle.isPrefixOf t)

/-- One step of the auto-reply loop body: the (already lower-cased rule
trigger's) case-insensitive substring test
`messageText.includes(trigger.toLowerCase())` against the lower-cased
inbound text. -/
def ruleMatches (text : Str) (r : Str × Str) : Bool :=
  containsSub (lowerStr r.1) (lowerStr text)

/-- The auto-reply matching loop shared by the Telegram handler
(`bot.on` at line 708) and the WhatsApp handler (`client.on` at line
206): walk the rule set in stored order and return the first rule whose
trigger is contained in the lower-cased text; `none` if no rule matches
(the loop `break`s after the first match, so at most one rule fires). -/
def autoReplyMatch (text : Str) (rules : List (Str × Str)) : Option (Str × Str) :=
  rules.find? (ruleMatches text)

/-- The Telegram message handler (line 708): `msg.text` is `none` for a
non-text message; the guard `if (!msg.text || msg.text.startsWith('/'))
return;` drops empty texts and commands before the rule loop runs.
Returns the reply text that is sent, if any. -/
def telegramAutoReply (text : Option Str) (rules : List (Str × Str)) : Option Str :=
  match text with
  | none => none
  | some t =>
    if t.isEmpty then none
    else if t.head? = some '/' then none
    else (autoReplyMatch t rules).map Prod.snd

/-!  Authorization gate and rule store (`index.js` lines 630-632, 570-607). -/

/-- `isAdmin` (line 630): open mode when `ADMIN_CHAT_IDS` is empty,
otherwise membership in the configured list. -/
def isAdmin (admins : List Int) (chatId : Int) : Bool :=
  admins.isEmpty || admins.contains chatId

/-- Outcome reported back to the requester by a command handler. -/
inductive Reply where
  | permissionDenied
  | ruleAdded
  | ruleDeleted
  | ruleUpdated
  | ruleNotFound
  | numberAdded
  | numberExists
  | numberRemoved
  | numberNotFound
  | scheduled
  | cancelled
  | scheduleNotFound
  | dbFailed
deriving DecidableEq

/-- `saveRuleToDB` (line 570): `INSERT OR REPLACE INTO rules`, with the
in-memory mirror updated in lockstep. -/
def saveRuleToDB (rules : List (Str × Str)) (trigger reply : Str) : List (Str × Str) :=
  setEntry rules trigger reply

/-- `deleteRuleFromDB` (line 584): `DELETE FROM rules WHERE trigger = ?`;
the callback receives `this.changes > 0`, i.e. whether a row existed. -/
def deleteRuleFromDB (rules : List (Str × Str)) (trigger : Str) : List (Str × Str) × Bool :=
  (eraseKey rules trigger, rules.any (fun e => decide (e.1 = trigger)))

/-- `getRuleFromDB` (line 598): `SELECT reply FROM rules WHERE trigger = ?`. -/
def getRuleFromDB (rules : List (Str × Str)) (trigger : Str) : Option Str :=
  lookupEntry rules trigger

/-- The `/addrule` handler (line 750): admin gate, then lower-case the
trigger and upsert; `dbOk` is whether the durable write succeeds. -/
def addRuleHandler (admins : List Int) (chatId : Int) (dbOk : Bool)
    (trigger reply : Str) (rules : List (Str × Str)) : List (Str × Str) × Reply :=
  if !(isAdmin admins chatId) then (rules, .permissionDenied)
  else if dbOk then (saveRuleToDB rules (lowerStr trigger) reply, .ruleAdded)
  else (rules, .dbFailed)

/-- The `/deleterule` handler (line 770): admin gate, then delete; the
reply distinguishes a removed row from an absent trigger. -/
def deleteRuleHandler (admins : List Int) (chatId : Int)
    (trigger : Str) (rules : List (Str × Str)) : List (Str × Str) × Reply :=
  if !(isAdmin admins chatId) then (rules, .permissionDenied)
  else
    let res := deleteRuleFromDB rules (lowerStr trigger)
    (res.1, if res.2 then .ruleDeleted else .ruleNotFound)

/-- The `/editrule` handler (line 789): admin gate, then upsert only when
the trigger already exists, otherwise report not found. -/
def editRuleHandler (admins : List Int) (chatId : Int) (dbOk : Bool)
    (trigger newReply : Str) (rules : List (Str × Str)) : List (Str × Str) × Reply :=
  if !(isAdmin admins chatId) then (rules, .permissionDenied)
  else
    match getRuleFromDB rules (lowerStr trigger) with
    | some _ =>
      if dbOk then (saveRuleToDB rules (lowerStr trigger) newReply, .ruleUpdated)
      else (rules, .dbFailed)
    | none => (rules, .ruleNotFound)

/-!  Contact allow-list (`index.js` lines 623-627, 816-842, 865-892). -/

/-- ASCII decimal digit test, mirroring the regex class that the Telegram
command patterns use for phone-number and time arguments. -/
def isDig (c : Char) : Bool :=
  decide (48 ≤ c.toNat) && decide (c.toNat ≤ 57)

/-- Phone-number normalization shared by `/send`, `/addnumber`,
`/removenumber`, `/schedule` and `/cancelschedule` (e.g. lines 672-676):
if the number does not start with a plus sign, strip one leading zero and
prefix the default country code 91. -/
def normalizeNumber (n : Str) : Str :=
  if n.head? = some '+' then n
  else '9' :: '1' :: (if n.head? = some '0' then n.tail else n)

/-- Removal of the first occurrence of `pat`, mirroring JS
`s.replace(pat, '')` for a plain-string pattern. -/
def replaceFirst : Str → Str → Str
  | [], _ => []
  | c :: rest, pat =>
    if pat.isPrefixOf (c :: rest) then (c :: rest).drop pat.length
    else c :: replaceFirst rest pat

/-- The WhatsApp individual-chat transport suffix. -/
def cUsSuffix : Str := ['@', 'c', '.', 'u', 's']

/-- The WhatsApp group-chat transport suffix. -/
def gUsSuffix : Str := ['@', 'g', '.', 'u', 's']

/-- The suffix-stripping done by `isAuthorizedNumber` (line 625):
`phoneNumber.replace('@c.us', '').replace('@g.us', '')`. -/
def cleanNumber (phone : Str) : Str :=
  replaceFirst (replaceFirst phone cUsSuffix) gUsSuffix

/-- `isAuthorizedNumber` (line 623): strip the transport suffix and test
plain membership in the authorized-numbers list.  Note that it does not
re-apply `normalizeNumber`. -/
def isAuthorizedNumber (authorized : List Str) (phone : Str) : Bool :=
  authorized.any (fun n => decide (n = cleanNumber phone))

/-- Removal of the first occurrence of a value from a list, mirroring JS
`list.splice(list.indexOf(x), 1)`. -/
def eraseFirst : List Str → Str → List Str
  | [], _ => []
  | x :: xs, k => if x = k then xs else x :: eraseFirst xs k

/-- The `/addnumber` handler (line 816): admin gate, normalize, reject a
duplicate, then on a successful durable insert push the normalized number
onto the in-memory list. -/
def addNumberHandler (admins : List Int) (chatId : Int) (dbOk : Bool)
    (num : Str) (authorized : List Str) : List Str × Reply :=
  if !(isAdmin admins chatId) then (authorized, .permissionDenied)
  else if authorized.any (fun x => decide (x = normalizeNumber num)) then
    (authorized, .numberExists)
  else if dbOk then (authorized ++ [normalizeNumber num], .numberAdded)
  else (authorized, .dbFailed)

/-- The `/removenumber` handler (line 865): admin gate, normalize, and on
a successful durable delete splice the normalized number out of the
in-memory list; an absent number reports not-found. -/
def removeNumberHandler (admins : List Int) (chatId : Int) (dbOk : Bool)
    (num : Str) (authorized : List Str) : List Str × Reply :=
  if !(isAdmin admins chatId) then (authorized, .permissionDenied)
  else if authorized.any (fun x => decide (x = normalizeNumber num)) then
    if dbOk then (eraseFirst authorized (normalizeNumber num), .numberRemoved)
    else (authorized, .dbFailed)
  else (authorized, .numberNotFound)

/-!  Scheduler (`index.js` lines 941-1176). -/

/-- One schedule entry as kept in the `schedules` table and the in-memory
`schedules` object: destination number, message text, and the hour and
minute captured by the command regex. -/
structure ScheduleData where
  number : Str
  text : Str
  hour : Str
  minute : Str
deriving DecidableEq

/-- Scheduler state: the durable `schedules` table, its in-memory mirror
`schedules`, and the registry of live cron timers `scheduledJobs`. -/
structure SchedState where
  db : List (Str × ScheduleData)
  mem : List (Str × ScheduleData)
  jobs : List (Str × ScheduleData)
deriving DecidableEq

/-- The empty scheduler state (fresh database, fresh process). -/
def emptySched : SchedState := ⟨[], [], []⟩

/-- The deterministic schedule id (line 1100):
`number + "_" + hour + ":" + minute`. -/
def scheduleId (number h m : Str) : Str :=
  number ++ '_' :: (h ++ ':' :: m)

/-- Decimal value of a digit string, `Nat`-valued. -/
def natOfDigits (s : Str) : Nat :=
  s.foldl (fun n c => 10 * n + (c.toNat - 48)) 0

/-- Validity of the `minute hour * * *` cron expression built at line
1055.  Modelled from the node-cron dependency's documented field ranges:
`cron.schedule` throws unless the minute field is a number in 0-59 and
the hour field a number in 0-23. -/
def cronValidTime (h m : Str) : Bool :=
  (!h.isEmpty) && h.all isDig && decide (natOfDigits h ≤ 23) &&
  (!m.isEmpty) && m.all isDig && decide (natOfDigits m ≤ 59)

/-- `createSchedule` (line 1054): build the cron expression and register
the started job under the schedule id; a `cron.schedule` failure is
caught and logged, leaving the registry unchanged. -/
def createSchedule (jobs : List (Str × ScheduleData)) (id : Str) (d : ScheduleData) :
    List (Str × ScheduleData) :=
  if cronValidTime d.hour d.minute then setEntry jobs id d else jobs

/-- Acceptance of the `/schedule` command arguments, mirroring the regex
at line 1087: the number is one or more digits, the message is non-empty,
and hour and minute are exactly two digits each (no range check). -/
def schedArgsOk (number text h m : Str) : Bool :=
  (!number.isEmpty) && number.all isDig && (!text.isEmpty) &&
  decide (h.length = 2) && h.all isDig &&
  decide (m.length = 2) && m.all isDig

/-- The `/schedule` handler (line 1087): normalize the number, build the
id, stop and discard any existing timer under that id, persist via
`INSERT OR REPLACE`; only on a successful write update the mirror and
start a fresh timer.  The handler performs no admin check; `admins` and
`chatId` are the configured set and the requester it receives but never
consults. -/
def scheduleHandler (admins : List Int) (chatId : Int) (persistOk : Bool)
    (number text h m : Str) (st : SchedState) : SchedState × Reply :=
  if persistOk then
    ({ db := setEntry st.db (scheduleId (normalizeNumber number) h m)
          ⟨normalizeNumber number, text, h, m⟩,
       mem := setEntry st.mem (scheduleId (normalizeNumber number) h m)
          ⟨normalizeNumber number, text, h, m⟩,
       jobs := createSchedule
          (eraseKey st.jobs (scheduleId (normalizeNumber number) h m))
          (scheduleId (normalizeNumber number) h m)
          ⟨normalizeNumber number, text, h, m⟩ }, .scheduled)
  else ({ st with jobs := eraseKey st.jobs (scheduleId (normalizeNumber number) h m) },
        .dbFailed)

/-- The `/cancelschedule` handler (line 1145): normalize the number,
build the id, stop and discard the timer if one is live, then delete the
durable record if the mirror has it; otherwise report not-found.  As with
`/schedule`, no admin check is made. -/
def cancelScheduleHandler (admins : List Int) (chatId : Int) (persistOk : Bool)
    (number h m : Str) (st : SchedState) : SchedState × Reply :=
  if (lookupEntry st.mem (scheduleId (normalizeNumber number) h m)).isSome then
    if persistOk then
      ({ db := eraseKey st.db (scheduleId (normalizeNumber number) h m),
         mem := eraseKey st.mem (scheduleId (normalizeNumber number) h m),
         jobs := eraseKey st.jobs (scheduleId (normalizeNumber number) h m) },
       .cancelled)
    else ({ st with jobs := eraseKey st.jobs (scheduleId (normalizeNumber number) h m) },
          .dbFailed)
  else ({ st with jobs := eraseKey st.jobs (scheduleId (normalizeNumber number) h m) },
        .scheduleNotFound)

/-- `initSchedules` (line 1039): walk the loaded records and materialize
each into a live timer via `createSchedule`; a per-record failure is
caught and logged and the loop continues with the rest. -/
def initSchedules (st : SchedState) : SchedState :=
  { st with jobs := st.mem.foldl (fun js e => createSchedule js e.1 e.2) st.jobs }

/-!  Helper lemmas. -/

theorem find_first_characterization {α : Type} (p : α → Bool) (l : List α) (r : α)
    (h : l.find? p = some r) :
    p r = true ∧ ∃ pre suf, l = pre ++ r :: suf ∧ ∀ q ∈ pre, p q = false := by
  induction l with
  | nil => simp at h
  | cons a rest ih =>
    cases hpa : p a with
    | true =>
      rw [List.find?_cons_of_pos _ hpa] at h
      injection h with h1
      subst h1
      refine ⟨hpa, [], rest, rfl, ?_⟩
      intro q hq
      exact absurd hq (List.not_mem_nil q)
    | false =>
      rw [List.find?_cons_of_neg _ (by simp [hpa])] at h
      obtain ⟨hp, pre, suf, heq, hpre⟩ := ih h
      refine ⟨hp, a :: pre, suf, by rw [heq, List.cons_append], ?_⟩
      intro q hq
      rcases List.mem_cons.mp hq with rfl | hq2
      · exact hpa
      · exact hpre q hq2

theorem digit_ne_at {c : Char} (h : isDig c = true) : c ≠ '@' := by
  intro heq
  rw [heq] at h
  exact absurd h (by decide)

theorem isPrefixOf_cons_ne {d c : Char} {pat xs : Str} (h : c ≠ d) :
    ((d :: pat).isPrefixOf (c :: xs)) = false := by
  have hb : (d == c) = false := beq_eq_false_iff_ne.mpr (Ne.symm h)
  simp [List.isPrefixOf, hb]

theorem replaceFirst_of_digits {s : Str} {rest : Str}
    (hs : ∀ c ∈ s, isDig c = true) :
    replaceFirst s ('@' :: rest) = s := by
  induction s with
  | nil => rfl
  | cons c cs ih =>
    have hc : c ≠ '@' := digit_ne_at (hs c (List.mem_cons_self c cs))
    unfold replaceFirst
    rw [if_neg (by rw [isPrefixOf_cons_ne hc]; exact Bool.false_ne_true)]
    rw [ih (fun d hd => hs d (List.mem_cons_of_mem c hd))]

theorem replaceFirst_append_suffix {s rest : Str}
    (hs : ∀ c ∈ s, isDig c = true) :
    replaceFirst (s ++ '@' :: rest) ('@' :: rest) = s := by
  induction s with
  | nil =>
    show replaceFirst ('@' :: rest) ('@' :: rest) = []
    unfold replaceFirst
    rw [if_pos (List.isPrefixOf_iff_prefix.mpr (List.prefix_refl _))]
    exact List.drop_length _
  | cons c cs ih =>
    have hc : c ≠ '@' := digit_ne_at (hs c (List.mem_cons_self c cs))
    show replaceFirst (c :: (cs ++ '@' :: rest)) ('@' :: rest) = c :: cs
    unfold replaceFirst
    rw [if_neg (by rw [isPrefixOf_cons_ne hc]; exact Bool.false_ne_true)]
    rw [ih (fun d hd => hs d (List.mem_cons_of_mem c hd))]

theorem replaceFirst_cUs_skips_gUs {s : Str}
    (hs : ∀ c ∈ s, isDig c = true) :
    replaceFirst (s ++ gUsSuffix) cUsSuffix = s ++ gUsSuffix := by
  induction s with
  | nil => decide
  | cons c cs ih =>
    have hc : c ≠ '@' := digit_ne_at (hs c (List.mem_cons_self c cs))
    show replaceFirst (c :: (cs ++ gUsSuffix)) cUsSuffix = c :: (cs ++ gUsSuffix)
    unfold replaceFirst
    rw [if_neg (by rw [show cUsSuffix = '@' :: ['c', '.', 'u', 's'] from rfl,
          isPrefixOf_cons_ne hc]; exact Bool.false_ne_true)]
    rw [ih (fun d hd => hs d (List.mem_cons_of_mem c hd))]

theorem cleanNumber_of_digits {s : Str} (hs : ∀ c ∈ s, isDig c = true) :
    cleanNumber s = s := by
  unfold cleanNumber
  rw [show cUsSuffix = '@' :: ['c', '.', 'u', 's'] from rfl, replaceFirst_of_digits hs]
  rw [show gUsSuffix = '@' :: ['g', '.', 'u', 's'] from rfl, replaceFirst_of_digits hs]

theorem cleanNumber_cUs {s : Str} (hs : ∀ c ∈ s, isDig c = true) :
    cleanNumber (s ++ cUsSuffix) = s := by
  unfold cleanNumber
  rw [show cUsSuffix = '@' :: ['c', '.', 'u', 's'] from rfl, replaceFirst_append_suffix hs]
  rw [show gUsSuffix = '@' :: ['g', '.', 'u', 's'] from rfl, replaceFirst_of_digits hs]

theorem cleanNumber_gUs {s : Str} (hs : ∀ c ∈ s, isDig c = true) :
    cleanNumber (s ++ gUsSuffix) = s := by
  unfold cleanNumber
  rw [replaceFirst_cUs_skips_gUs hs]
  rw [show gUsSuffix = '@' :: ['g', '.', 'u', 's'] from rfl, replaceFirst_append_suffix hs]

theorem normalizeNumber_digits {n : Str} (h : ∀ c ∈ n, isDig c = true) :
    ∀ c ∈ normalizeNumber n, isDig c = true := by
  unfold normalizeNumber
  by_cases hp : n.head? = some '+'
  · rw [if_pos hp]
    exact h
  · rw [if_neg hp]
    intro c hc
    rcases List.mem_cons.mp hc with rfl | hc2
    · decide
    rcases List.mem_cons.mp hc2 with rfl | hc3
    · decide
    by_cases h0 : n.head? = some '0'
    · rw [if_pos h0] at hc3
      exact h c (List.mem_of_mem_tail hc3)
    · rw [if_neg h0] at hc3
      exact h c hc3

theorem eraseFirst_append_of_not_mem {l : List Str} {k : Str}
    (h : ∀ x ∈ l, x ≠ k) : eraseFirst (l ++ [k]) k = l := by
  induction l with
  | nil =>
    show eraseFirst [k] k = []
    unfold eraseFirst
    rw [if_pos rfl]
  | cons x xs ih =>
    show eraseFirst (x :: (xs ++ [k])) k = x :: xs
    unfold eraseFirst
    rw [if_neg (h x (List.mem_cons_self x xs))]
    rw [ih (fun y hy => h y (List.mem_cons_of_mem x hy))]

theorem natOfDigits_le_of_two {s : Str} (hlen : s.length = 2)
    (hdig : s.all isDig = true) : natOfDigits s ≤ 99 := by
  obtain ⟨a, b, rfl⟩ := List.length_eq_two.mp hlen
  simp only [List.all_cons, List.all_nil, Bool.and_eq_true, Bool.and_true] at hdig
  have ha : 48 ≤ a.toNat ∧ a.toNat ≤ 57 := by
    have := hdig.1
    unfold isDig at this
    simpa only [Bool.and_eq_true, decide_eq_true_eq] using this
  have hb : 48 ≤ b.toNat ∧ b.toNat ≤ 57 := by
    have := hdig.2
    unfold isDig at this
    simpa only [Bool.and_eq_true, decide_eq_true_eq] using this
  obtain ⟨ha2, ha⟩ := ha
  obtain ⟨hb2, hb⟩ := hb
  show 10 * (10 * 0 + (a.toNat - 48)) + (b.toNat - 48) ≤ 99
  omega

/-!  Concrete data for witnesses and counterexamples. -/

/-- A sample inbound text, mixed case: "Say HELLO". -/
def demoText : Str := ['S', 'a', 'y', ' ', 'H', 'E', 'L', 'L', 'O']

/-- A sample stored trigger. -/
def demoTrig : Str := ['h', 'e', 'l', 'l', 'o']

/-- A sample stored reply. -/
def demoRep : Str := ['h', 'i']

/-- A sample rule set whose second rule matches `demoText`. -/
def demoRules : List (Str × Str) :=
  [(['b', 'y', 'e'], ['c', 'u']), (demoTrig, demoRep)]

/-- A trigger absent from `demoRules`. -/
def demoAbsent : Str := ['z']

/-- A sample raw phone-number argument without a country code. -/
def demoNum : Str := ['9', '8', '7', '6', '5', '4', '3', '2', '1', '0']

/-- The normalized form the code stores for `demoNum`. -/
def demoNormNum : Str := ['9', '1', '9', '8', '7', '6', '5', '4', '3', '2', '1', '0']

/-- A sample schedule message. -/
def demoMsg : Str := ['h', 'i']

/-- A sample schedule entry for 08:00. -/
def demoData : ScheduleData := ⟨demoNormNum, demoMsg, ['0', '8'], ['0', '0']⟩

/-- The schedule id of `demoData`. -/
def demoId : Str := scheduleId demoNormNum ['0', '8'] ['0', '0']

/-- A sample loaded schedule table with a single valid record. -/
def demoRecs : List (Str × ScheduleData) := [(demoId, demoData)]

/-!  Claim theorems. -/

/-- C1: for every inbound text and rule set, the matcher lower-cases the
inbound text and walks the rules in stored order; it returns no rule
exactly when no lower-cased trigger is contained in the lower-cased text,
and when it returns a rule, that rule's trigger is contained in the text
and every rule stored before it does not match — so the first matching
rule fires and (the result being a single `Option`) at most one rule
fires per inbound message. -/
theorem C1_matcher_first_match (text : Str) (rules : List (Str × Str)) :
    (autoReplyMatch text rules = none ↔
      ∀ r ∈ rules, containsSub (lowerStr r.1) (lowerStr text) = false) ∧
    (∀ r, autoReplyMatch text rules = some r →
      containsSub (lowerStr r.1) (lowerStr text) = true ∧
      ∃ pre suf, rules = pre ++ r :: suf ∧
        ∀ q ∈ pre, containsSub (lowerStr q.1) (lowerStr text) = false) := by
  constructor
  · rw [autoReplyMatch, List.find?_eq_none]
    constructor
    · intro h r hr
      have hf := h r hr
      show ruleMatches text r = false
      exact Bool.eq_false_iff.mpr hf
    · intro h r hr
      have hf := h r hr
      show ¬(ruleMatches text r = true)
      intro hc
      rw [show ruleMatches text r = containsSub (lowerStr r.1) (lowerStr text) from rfl, hf]
        at hc
      exact Bool.false_ne_true hc
  · intro r hr
    obtain ⟨hp, pre, suf, heq, hpre⟩ := find_first_characterization (ruleMatches text) rules r hr
    exact ⟨hp, pre, suf, heq, fun q hq => hpre q hq⟩

/-- C1 witness: on the concrete rule set `demoRules` and text "Say HELLO"
the matcher fires the "hello" rule and its trigger is contained
case-insensitively in the text. -/
theorem C1_matcher_first_match_witness :
    containsSub (lowerStr demoTrig) (lowerStr demoText) = true :=
  ((C1_matcher_first_match demoText demoRules).2 (demoTrig, demoRep) (by decide)).1

/-- C10: a Telegram message with no text, an empty text, or a text
starting with a slash never reaches the matcher: the auto-reply handler
returns nothing, whatever the rule set holds. -/
theorem C10_telegram_command_guard (rules : List (Str × Str)) (text : Option Str)
    (h : text = none ∨ text = some [] ∨ ∃ rest, text = some ('/' :: rest)) :
    telegramAutoReply text rules = none := by
  rcases h with rfl | rfl | ⟨rest, rfl⟩
  · rfl
  · rfl
  · show telegramAutoReply (some ('/' :: rest)) rules = none
    simp [telegramAutoReply]

/-- C10 witness: the command text "/hello" contains the stored trigger
"hello" yet produces no auto-reply. -/
theorem C10_telegram_command_guard_witness :
    telegramAutoReply (some ('/' :: demoTrig)) demoRules = none :=
  C10_telegram_command_guard demoRules (some ('/' :: demoTrig))
    (Or.inr (Or.inr ⟨demoTrig, rfl⟩))

/-- C7: after `upsert(T,R)` the store answers `get(T) = R`; a second
upsert of the same trigger overwrites the reply (last write wins); and on
a table with primary-key discipline the upsert leaves exactly one row for
the trigger. -/
theorem C7_upsert_get (rules : List (Str × Str)) (T R R2 : Str) :
    getRuleFromDB (saveRuleToDB rules T R) T = some R ∧
    getRuleFromDB (saveRuleToDB (saveRuleToDB rules T R) T R2) T = some R2 ∧
    (nodupKeys rules → countKey (saveRuleToDB rules T R) T = 1) := by
  refine ⟨?_, ?_, ?_⟩
  · show lookupEntry (setEntry rules T R) T = some R
    exact lookupEntry_setEntry_self
  · show lookupEntry (setEntry (setEntry rules T R) T R2) T = some R2
    exact lookupEntry_setEntry_self
  · intro h
    show countKey (setEntry rules T R) T = 1
    exact countKey_setEntry_self h

/-- C7 witness: a concrete upsert on `demoRules` leaves exactly one row
for the trigger. -/
theorem C7_upsert_get_witness :
    countKey (saveRuleToDB demoRules demoTrig demoRep) demoTrig = 1 :=
  (C7_upsert_get demoRules demoTrig demoRep demoRep).2.2 (by decide)

/-- C8: `remove(T)` reports true exactly when a row for `T` existed;
after the removal `get(T)` answers not-found; and removing an absent
trigger reports false and leaves the store unchanged. -/
theorem C8_remove_semantics (rules : List (Str × Str)) (T : Str) :
    ((deleteRuleFromDB rules T).2 = true ↔ ∃ e ∈ rules, e.1 = T) ∧
    getRuleFromDB (deleteRuleFromDB rules T).1 T = none ∧
    ((∀ e ∈ rules, e.1 ≠ T) →
      (deleteRuleFromDB rules T).1 = rules ∧ (deleteRuleFromDB rules T).2 = false) := by
  refine ⟨?_, ?_, ?_⟩
  · show (rules.any (fun e => decide (e.1 = T))) = true ↔ ∃ e ∈ rules, e.1 = T
    exact any_key_eq_true
  · show lookupEntry (eraseKey rules T) T = none
    exact lookupEntry_eraseKey_self
  · intro h
    constructor
    · show eraseKey rules T = rules
      exact eraseKey_eq_self h
    · show (rules.any (fun e => decide (e.1 = T))) = false
      apply Bool.eq_false_iff.mpr
      intro hc
      rcases any_key_eq_true.mp hc with ⟨e, he, hek⟩
      exact h e he hek

/-- C8 witness: removing the absent trigger "z" from `demoRules` leaves
the store unchanged. -/
theorem C8_remove_semantics_witness :
    (deleteRuleFromDB demoRules demoAbsent).1 = demoRules :=
  ((C8_remove_semantics demoRules demoAbsent).2.2 (by decide)).1

/-- C2 counterexample: with the non-empty admin set {1}, requester 2 is
not an admin, yet the `/schedule` command mutates the Scheduler state and
reports success instead of a permission error — the authorization gate is
not evaluated for schedule-mutating commands. -/
theorem C2_gate_counterexample :
    isAdmin [1] 2 = false ∧
    (scheduleHandler [1] 2 true demoNum demoMsg ['0', '8'] ['0', '0'] emptySched).2
      = Reply.scheduled ∧
    (scheduleHandler [1] 2 true demoNum demoMsg ['0', '8'] ['0', '0'] emptySched).1
      ≠ emptySched := by
  refine ⟨by decide, by decide, ?_⟩
  intro hc
  have : lookupEntry (scheduleHandler [1] 2 true demoNum demoMsg
      ['0', '8'] ['0', '0'] emptySched).1.db demoId = none := by
    rw [hc]
    rfl
  rw [show lookupEntry (scheduleHandler [1] 2 true demoNum demoMsg
      ['0', '8'] ['0', '0'] emptySched).1.db demoId
      = some demoData from by decide] at this
  exact Option.noConfusion this

/-- C2 amended: the gate itself behaves as specified (open when the admin
set is empty, membership otherwise) and it is evaluated before any state
change for the rule-store and allow-list mutating commands — a non-member
causes no state change and receives a permission error.  The `/schedule`
and `/cancelschedule` commands, however, perform no authorization check
at all: their outcome is independent of the requester. -/
theorem C2_gate_amended (admins : List Int) (chatId : Int) :
    (admins = [] → isAdmin admins chatId = true) ∧
    (admins ≠ [] → chatId ∉ admins → isAdmin admins chatId = false) ∧
    (isAdmin admins chatId = false →
      (∀ dbOk trigger reply rules,
        addRuleHandler admins chatId dbOk trigger reply rules
          = (rules, Reply.permissionDenied)) ∧
      (∀ trigger rules,
        deleteRuleHandler admins chatId trigger rules
          = (rules, Reply.permissionDenied)) ∧
      (∀ dbOk trigger newReply rules,
        editRuleHandler admins chatId dbOk trigger newReply rules
          = (rules, Reply.permissionDenied)) ∧
      (∀ dbOk num authorized,
        addNumberHandler admins chatId dbOk num authorized
          = (authorized, Reply.permissionDenied)) ∧
      (∀ dbOk num authorized,
        removeNumberHandler admins chatId dbOk num authorized
          = (authorized, Reply.permissionDenied))) ∧
    (∀ chatId2 persistOk number text h m st,
      scheduleHandler admins chatId persistOk number text h m st
        = scheduleHandler admins chatId2 persistOk number text h m st) ∧
    (∀ chatId2 persistOk number h m st,
      cancelScheduleHandler admins chatId persistOk number h m st
        = cancelScheduleHandler admins chatId2 persistOk number h m st) := by
  refine ⟨?_, ?_, ?_, fun _ _ _ _ _ _ _ => rfl, fun _ _ _ _ _ _ => rfl⟩
  · intro h
    subst h
    rfl
  · intro hne hmem
    have h1 : admins.isEmpty = false := by
      cases admins with
      | nil => exact absurd rfl hne
      | cons a l => rfl
    have h2 : admins.contains chatId = false := by
      apply Bool.eq_false_iff.mpr
      intro hc
      exact hmem (List.mem_of_elem_eq_true hc)
    rw [isAdmin, h1, h2]
    rfl
  · intro hfalse
    refine ⟨?_, ?_, ?_, ?_, ?_⟩
    · intro dbOk trigger reply rules
      rw [addRuleHandler, hfalse]
      rfl
    · intro trigger rules
      rw [deleteRuleHandler, hfalse]
      rfl
    · intro dbOk trigger newReply rules
      rw [editRuleHandler, hfalse]
      rfl
    · intro dbOk num authorized
      rw [addNumberHandler, hfalse]
      rfl
    · intro dbOk num authorized
      rw [removeNumberHandler, hfalse]
      rfl

/-- C2 amended witness: requester 2 with the non-empty admin set {1}
cannot add a rule — the store is unchanged and a permission error is
returned. -/
theorem C2_gate_amended_witness :
    addRuleHandler [1] 2 true demoTrig demoRep demoRules
      = (demoRules, Reply.permissionDenied) :=
  ((C2_gate_amended [1] 2).2.2.1 (by decide)).1 true demoTrig demoRep demoRules

/-- C6 counterexample: adding the country-code-less number 9876543210
succeeds and stores the normalized form 919876543210, yet `isAllowed` on
the equivalent un-normalized inputs — the very number used at add time,
and its leading-zero form with a transport suffix — answers false,
because the lookup strips only the transport suffix and never re-applies
the phone normalization. -/
theorem C6_allowlist_counterexample :
    (addNumberHandler [] 0 true demoNum []).2 = Reply.numberAdded ∧
    (addNumberHandler [] 0 true demoNum []).1 = [demoNormNum] ∧
    isAuthorizedNumber (addNumberHandler [] 0 true demoNum []).1 demoNum = false ∧
    isAuthorizedNumber (addNumberHandler [] 0 true demoNum []).1
      (('0' :: demoNum) ++ cUsSuffix) = false := by
  decide

/-- C6 amended: after a successful `add(contactId)` the stored value is
the normalized number, and `isAllowed` answers true for that normalized
form both bare and carrying either transport suffix (the only
normalization applied at lookup time is suffix-stripping); `remove` with
the same raw argument removes exactly the entry `add` created, since add
and remove share the `normalizeNumber` step — but equivalent
un-normalized inputs are not recognized at lookup (see the
counterexample). -/
theorem C6_allowlist_amended (admins : List Int) (chatId : Int)
    (authorized : List Str) (num : Str)
    (hadmin : isAdmin admins chatId = true)
    (hdig : ∀ c ∈ num, isDig c = true)
    (hnew : ∀ x ∈ authorized, x ≠ normalizeNumber num) :
    (addNumberHandler admins chatId true num authorized).1
      = authorized ++ [normalizeNumber num] ∧
    isAuthorizedNumber (authorized ++ [normalizeNumber num]) (normalizeNumber num) = true ∧
    isAuthorizedNumber (authorized ++ [normalizeNumber num])
      (normalizeNumber num ++ cUsSuffix) = true ∧
    isAuthorizedNumber (authorized ++ [normalizeNumber num])
      (normalizeNumber num ++ gUsSuffix) = true ∧
    (removeNumberHandler admins chatId true num
      (authorized ++ [normalizeNumber num])).1 = authorized := by
  have hdign : ∀ c ∈ normalizeNumber num, isDig c = true := normalizeNumber_digits hdig
  have hanyfalse : authorized.any (fun x => decide (x = normalizeNumber num)) = false := by
    apply Bool.eq_false_iff.mpr
    intro hc
    rcases List.any_eq_true.mp hc with ⟨x, hx, hxe⟩
    exact hnew x hx (of_decide_eq_true hxe)
  have hmem : ∀ p, cleanNumber p = normalizeNumber num →
      isAuthorizedNumber (authorized ++ [normalizeNumber num]) p = true := by
    intro p hp
    apply List.any_eq_true.mpr
    refine ⟨normalizeNumber num, List.mem_append_right _ (List.mem_singleton.mpr rfl), ?_⟩
    rw [hp]
    exact decide_eq_true rfl
  refine ⟨?_, ?_, ?_, ?_, ?_⟩
  · rw [addNumberHandler, hadmin]
    rw [if_neg (by simp)]
    rw [if_neg (by rw [hanyfalse]; exact Bool.false_ne_true)]
    rw [if_pos rfl]
  · exact hmem _ (cleanNumber_of_digits hdign)
  · exact hmem _ (cleanNumber_cUs hdign)
  · exact hmem _ (cleanNumber_gUs hdign)
  · have hany2 : (authorized ++ [normalizeNumber num]).any
        (fun x => decide (x = normalizeNumber num)) = true := by
      apply List.any_eq_true.mpr
      exact ⟨normalizeNumber num,
        List.mem_append_right _ (List.mem_singleton.mpr rfl), decide_eq_true rfl⟩
    rw [removeNumberHandler, hadmin]
    rw [if_neg (by simp)]
    rw [if_pos hany2]
    rw [if_pos rfl]
    exact eraseFirst_append_of_not_mem hnew

/-- C6 amended witness: the concrete added number is recognized when it
arrives carrying the WhatsApp individual-chat suffix. -/
theorem C6_allowlist_amended_witness :
    isAuthorizedNumber ([] ++ [normalizeNumber demoNum])
      (normalizeNumber demoNum ++ cUsSuffix) = true :=
  (C6_allowlist_amended [] 0 [] demoNum (by decide) (by decide) (by decide)).2.2.1

theorem scheduleHandler_success_post (admins : List Int) (chatId : Int)
    (st : SchedState) (number text h m : Str)
    (hdb : nodupKeys st.db) (hmem : nodupKeys st.mem) (hjobs : nodupKeys st.jobs)
    (hcron : cronValidTime h m = true) :
    countKey ((scheduleHandler admins chatId true number text h m st).1).db
      (scheduleId (normalizeNumber number) h m) = 1 ∧
    lookupEntry ((scheduleHandler admins chatId true number text h m st).1).db
      (scheduleId (normalizeNumber number) h m)
      = some ⟨normalizeNumber number, text, h, m⟩ ∧
    countKey ((scheduleHandler admins chatId true number text h m st).1).jobs
      (scheduleId (normalizeNumber number) h m) = 1 ∧
    lookupEntry ((scheduleHandler admins chatId true number text h m st).1).jobs
      (scheduleId (normalizeNumber number) h m)
      = some ⟨normalizeNumber number, text, h, m⟩ ∧
    nodupKeys ((scheduleHandler admins chatId true number text h m st).1).db ∧
    nodupKeys ((scheduleHandler admins chatId true number text h m st).1).mem ∧
    nodupKeys ((scheduleHandler admins chatId true number text h m st).1).jobs := by
  have hjobs1 : ((scheduleHandler admins chatId true number text h m st).1).jobs
      = setEntry (eraseKey st.jobs (scheduleId (normalizeNumber number) h m))
          (scheduleId (normalizeNumber number) h m)
          ⟨normalizeNumber number, text, h, m⟩ := by
    show createSchedule _ _ _ = _
    unfold createSchedule
    rw [if_pos hcron]
  refine ⟨countKey_setEntry_self hdb, lookupEntry_setEntry_self, ?_, ?_,
    nodupKeys_setEntry hdb, nodupKeys_setEntry hmem, ?_⟩
  · rw [hjobs1]
    exact countKey_setEntry_self (nodupKeys_eraseKey hjobs)
  · rw [hjobs1]
    exact lookupEntry_setEntry_self
  · rw [hjobs1]
    exact nodupKeys_setEntry (nodupKeys_eraseKey hjobs)

/-- C3: on a well-formed scheduler state, creating a schedule for a
contact and time — and then creating again for the same contact and time
with a new message — leaves exactly one durable record and exactly one
live timer under the deterministic id, both holding the latest message
(the earlier timer having been stopped and discarded first); and a create
whose persistence fails starts no timer for that id and leaves the
durable table unchanged. -/
theorem C3_schedule_idempotent_replace (admins : List Int) (chatId : Int)
    (st st1 st2 : SchedState) (number t1 t2 : Str) (h m : Str)
    (h1 : st1 = (scheduleHandler admins chatId true number t1 h m st).1)
    (h2 : st2 = (scheduleHandler admins chatId true number t2 h m st1).1)
    (hdb : nodupKeys st.db) (hmem : nodupKeys st.mem) (hjobs : nodupKeys st.jobs)
    (hcron : cronValidTime h m = true) :
    countKey st2.db (scheduleId (normalizeNumber number) h m) = 1 ∧
    lookupEntry st2.db (scheduleId (normalizeNumber number) h m)
      = some ⟨normalizeNumber number, t2, h, m⟩ ∧
    countKey st2.jobs (scheduleId (normalizeNumber number) h m) = 1 ∧
    lookupEntry st2.jobs (scheduleId (normalizeNumber number) h m)
      = some ⟨normalizeNumber number, t2, h, m⟩ ∧
    (∀ t3,
      lookupEntry ((scheduleHandler admins chatId false number t3 h m st2).1).jobs
        (scheduleId (normalizeNumber number) h m) = none ∧
      ((scheduleHandler admins chatId false number t3 h m st2).1).db = st2.db) := by
  obtain ⟨-, -, -, -, hdb1, hmem1, hjobs1⟩ :=
    scheduleHandler_success_post admins chatId st number t1 h m hdb hmem hjobs hcron
  rw [← h1] at hdb1 hmem1 hjobs1
  obtain ⟨c1, c2, c3, c4, -, -, -⟩ :=
    scheduleHandler_success_post admins chatId st1 number t2 h m hdb1 hmem1 hjobs1 hcron
  rw [← h2] at c1 c2 c3 c4
  refine ⟨c1, c2, c3, c4, ?_⟩
  intro t3
  constructor
  · show lookupEntry (eraseKey st2.jobs (scheduleId (normalizeNumber number) h m))
        (scheduleId (normalizeNumber number) h m) = none
    exact lookupEntry_eraseKey_self
  · rfl

/-- C3 witness: two concrete creates for the same contact and time on the
empty state leave exactly one durable record under the id. -/
theorem C3_schedule_idempotent_replace_witness :
    countKey ((scheduleHandler [] 0 true demoNum ['a'] ['0', '8'] ['0', '0']
        ((scheduleHandler [] 0 true demoNum demoMsg ['0', '8'] ['0', '0']
          emptySched).1)).1).db
      (scheduleId (normalizeNumber demoNum) ['0', '8'] ['0', '0']) = 1 :=
  (C3_schedule_idempotent_replace [] 0 emptySched _ _ demoNum demoMsg ['a']
    ['0', '8'] ['0', '0'] rfl rfl (by decide) (by decide) (by decide) (by decide)).1

/-- C4: cancelling a schedule id whose record exists stops and discards
the timer and deletes the durable record — afterwards neither the
durable table, the mirror, nor the live-timer registry holds the id, so
no fire can occur at any later scheduled time; cancelling an id with no
record reports not-found and leaves the durable table and mirror
unchanged. -/
theorem C4_cancel_schedule (admins : List Int) (chatId : Int) (st : SchedState)
    (number h m : Str) :
    ((lookupEntry st.mem (scheduleId (normalizeNumber number) h m)).isSome = true →
      (cancelScheduleHandler admins chatId true number h m st).2 = Reply.cancelled ∧
      lookupEntry ((cancelScheduleHandler admins chatId true number h m st).1).db
        (scheduleId (normalizeNumber number) h m) = none ∧
      lookupEntry ((cancelScheduleHandler admins chatId true number h m st).1).mem
        (scheduleId (normalizeNumber number) h m) = none ∧
      lookupEntry ((cancelScheduleHandler admins chatId true number h m st).1).jobs
        (scheduleId (normalizeNumber number) h m) = none) ∧
    (lookupEntry st.mem (scheduleId (normalizeNumber number) h m) = none →
      (cancelScheduleHandler admins chatId true number h m st).2
        = Reply.scheduleNotFound ∧
      ((cancelScheduleHandler admins chatId true number h m st).1).db = st.db ∧
      ((cancelScheduleHandler admins chatId true number h m st).1).mem = st.mem) := by
  constructor
  · intro hsome
    have hred : cancelScheduleHandler admins chatId true number h m st
        = ({ db := eraseKey st.db (scheduleId (normalizeNumber number) h m),
             mem := eraseKey st.mem (scheduleId (normalizeNumber number) h m),
             jobs := eraseKey st.jobs (scheduleId (normalizeNumber number) h m) },
           Reply.cancelled) := by
      unfold cancelScheduleHandler
      rw [if_pos hsome, if_pos rfl]
    rw [hred]
    exact ⟨rfl, lookupEntry_eraseKey_self, lookupEntry_eraseKey_self,
      lookupEntry_eraseKey_self⟩
  · intro hnone
    have hcond : (lookupEntry st.mem (scheduleId (normalizeNumber number) h m)).isSome
        = false := by
      rw [hnone]
      rfl
    have hred : cancelScheduleHandler admins chatId true number h m st
        = ({ st with jobs := eraseKey st.jobs (scheduleId (normalizeNumber number) h m) },
           Reply.scheduleNotFound) := by
      unfold cancelScheduleHandler
      rw [if_neg (by rw [hcond]; exact Bool.false_ne_true)]
    rw [hred]
    exact ⟨rfl, rfl, rfl⟩

/-- C4 witness: cancelling the concrete 08:00 schedule held in
`demoRecs` reports success. -/
theorem C4_cancel_schedule_witness :
    (cancelScheduleHandler [] 0 true demoNum ['0', '8'] ['0', '0']
      ⟨demoRecs, demoRecs, demoRecs⟩).2 = Reply.cancelled :=
  ((C4_cancel_schedule [] 0 ⟨demoRecs, demoRecs, demoRecs⟩ demoNum
    ['0', '8'] ['0', '0']).1 (by decide)).1

theorem initSchedules_foldl (recs : List (Str × ScheduleData)) :
    ∀ acc : List (Str × ScheduleData),
    (∀ e ∈ recs, ∀ a ∈ acc, a.1 ≠ e.1) →
    nodupKeys recs →
    recs.foldl (fun js e => createSchedule js e.1 e.2) acc
      = acc ++ recs.filter (fun e => cronValidTime e.2.hour e.2.minute) := by
  induction recs with
  | nil =>
    intro acc _ _
    simp
  | cons e rest ih =>
    intro acc hdisj hnd
    have hndr : nodupKeys rest := by
      have h2 := hnd
      simp only [nodupKeys, List.map_cons, List.nodup_cons] at h2
      exact h2.2
    have hkey : e.1 ∉ rest.map Prod.fst := by
      have h2 := hnd
      simp only [nodupKeys, List.map_cons, List.nodup_cons] at h2
      exact h2.1
    rw [List.foldl_cons]
    by_cases hc : cronValidTime e.2.hour e.2.minute = true
    · have hstep : createSchedule acc e.1 e.2 = acc ++ [(e.1, e.2)] := by
        unfold createSchedule
        rw [if_pos hc]
        exact setEntry_eq_append (fun a ha => hdisj e (List.mem_cons_self e rest) a ha)
      have hdisj2 : ∀ f ∈ rest, ∀ a ∈ acc ++ [(e.1, e.2)], a.1 ≠ f.1 := by
        intro f hf a ha
        rcases List.mem_append.mp ha with ha1 | ha2
        · exact hdisj f (List.mem_cons_of_mem e hf) a ha1
        · rw [List.mem_singleton.mp ha2]
          show e.1 ≠ f.1
          intro hef
          exact hkey (hef ▸ List.mem_map_of_mem Prod.fst hf)
      rw [hstep, ih (acc ++ [(e.1, e.2)]) hdisj2 hndr]
      rw [List.filter_cons, if_pos hc, List.append_assoc]
      rfl
    · have hstep : createSchedule acc e.1 e.2 = acc := by
        unfold createSchedule
        rw [if_neg hc]
      rw [hstep, ih acc (fun f hf a ha => hdisj f (List.mem_cons_of_mem e hf) a ha) hndr]
      rw [List.filter_cons, if_neg hc]

/-- C5: startup reconciliation applied to loaded records and zero live
timers materializes exactly the records whose cron fields are valid: when
every record is valid there are as many live timers as records, and a
record that fails to materialize does not prevent any other valid record
from getting its timer. -/
theorem C5_startup_reconciliation (recs : List (Str × ScheduleData))
    (hnd : nodupKeys recs) :
    (initSchedules ⟨recs, recs, []⟩).jobs
      = recs.filter (fun e => cronValidTime e.2.hour e.2.minute) ∧
    ((∀ e ∈ recs, cronValidTime e.2.hour e.2.minute = true) →
      (initSchedules ⟨recs, recs, []⟩).jobs.length = recs.length) ∧
    (∀ e ∈ recs, cronValidTime e.2.hour e.2.minute = true →
      lookupEntry (initSchedules ⟨recs, recs, []⟩).jobs e.1 = some e.2) := by
  have hfold : (initSchedules ⟨recs, recs, []⟩).jobs
      = recs.filter (fun e => cronValidTime e.2.hour e.2.minute) := by
    show recs.foldl (fun js e => createSchedule js e.1 e.2) [] = _
    rw [initSchedules_foldl recs [] (fun e _ a ha => absurd ha (List.not_mem_nil a)) hnd]
    rfl
  refine ⟨hfold, ?_, ?_⟩
  · intro hall
    rw [hfold, List.filter_eq_self.mpr (fun a ha => by
      rw [hall a ha])]
  · intro e he hval
    rw [hfold]
    have hmemf : e ∈ recs.filter (fun e => cronValidTime e.2.hour e.2.minute) :=
      List.mem_filter.mpr ⟨he, hval⟩
    have hndf : nodupKeys (recs.filter (fun e => cronValidTime e.2.hour e.2.minute)) := by
      unfold nodupKeys at hnd ⊢
      exact ((List.filter_sublist recs).map Prod.fst).nodup hnd
    exact lookupEntry_of_mem_nodup hndf hmemf

/-- C5 witness: the single valid record in `demoRecs` gets its live
timer on reconciliation. -/
theorem C5_startup_reconciliation_witness :
    lookupEntry (initSchedules ⟨demoRecs, demoRecs, []⟩).jobs demoId = some demoData :=
  (C5_startup_reconciliation demoRecs (by decide)).2.2 (demoId, demoData)
    (by decide) (by decide)

/-- C9 counterexample: the schedule command's regex accepts the time
25:70; the handler stores it durably (and reports success), yet hour 25
is outside the range 0-23 and minute 70 outside 0-59 — the ranges the
claim asserts are never validated. -/
theorem C9_time_range_counterexample :
    schedArgsOk demoNum demoMsg ['2', '5'] ['7', '0'] = true ∧
    (scheduleHandler [] 0 true demoNum demoMsg ['2', '5'] ['7', '0'] emptySched).2
      = Reply.scheduled ∧
    lookupEntry ((scheduleHandler [] 0 true demoNum demoMsg
        ['2', '5'] ['7', '0'] emptySched).1).db
        (scheduleId (normalizeNumber demoNum) ['2', '5'] ['7', '0'])
      = some ⟨demoNormNum, demoMsg, ['2', '5'], ['7', '0']⟩ ∧
    ¬(natOfDigits ['2', '5'] ≤ 23) ∧ ¬(natOfDigits ['7', '0'] ≤ 59) := by
  decide

/-- C9 amended: every schedule accepted by the command regex has hour and
minute given as exactly two decimal digits, so the durably stored values
are integers in the range 0-99 (not 0-23 and 0-59: out-of-range times
such as 25:70 are accepted and stored; no timer runs for them because
the cron expression is rejected). -/
theorem C9_time_range_amended (admins : List Int) (chatId : Int)
    (number text h m : Str) (st : SchedState)
    (hok : schedArgsOk number text h m = true) :
    lookupEntry ((scheduleHandler admins chatId true number text h m st).1).db
        (scheduleId (normalizeNumber number) h m)
      = some ⟨normalizeNumber number, text, h, m⟩ ∧
    natOfDigits h ≤ 99 ∧ natOfDigits m ≤ 99 := by
  have hsplit := hok
  unfold schedArgsOk at hsplit
  simp only [Bool.and_eq_true, decide_eq_true_eq] at hsplit
  have hlenh : h.length = 2 := by tauto
  have hallh : h.all isDig = true := by tauto
  have hlenm : m.length = 2 := by tauto
  have hallm : m.all isDig = true := by tauto
  exact ⟨lookupEntry_setEntry_self, natOfDigits_le_of_two hlenh hallh,
    natOfDigits_le_of_two hlenm hallm⟩

/-- C9 amended witness: the accepted hour field 25 stores a value within
0-99. -/
theorem C9_time_range_amended_witness : natOfDigits ['2', '5'] ≤ 99 :=
  (C9_time_range_amended [] 0 demoNum demoMsg ['2', '5'] ['7', '0'] emptySched
    (by decide)).2.1
